import Mathlib

/-!
Shallow embedding of the Vexa memory-orchestration subsystem
(`lib/orchestrator.py`, `lib/memory/short_term_memory.py`,
`lib/memory/summarizer.py`, `lib/command_parser.py`, `vexa.py`).

Conventions:
* Python dicts `{role, content}` become the `Message` structure; the
  `.get(key, default)` accesses always find the key in the states the
  program builds, so the fields are total.
* Python floats are modelled as rationals (`ℚ`); the scorer's constants
  0.5, 0.2, 0.02, 0.15, 0.3 are the exact rationals 1/2, 1/5, 1/50, 3/20,
  3/10.
* External effects (the completion provider, the ChromaDB add) are passed
  in as explicit oracles (`Except`-valued parameters); the ChromaDB
  collection itself is modelled as the list of records added to it.
-/

namespace Vexa

/-- A conversation entry: Python dict with `role` and `content`. -/
structure Message where
  role : String
  content : String
deriving DecidableEq

/-- Result of `ConversationSummarizer.summarize_messages` /
`_parse_summary_response` / `_fallback_summary`: dict with
`summary`, `topic`, `key_points`. -/
structure SummaryResult where
  summary : String
  topic : String
  keyPoints : List String
deriving DecidableEq

/-- The slice of a ChromaDB record that `add_memory_chunk` writes and the
recall/stat paths read back: the document (`summary`) and the metadata
fields used by the claims. -/
structure MemoryRecord where
  summary : String
  topic : String
  importance : ℚ
  messageCount : Nat
deriving DecidableEq

/-- A recalled memory as consumed by `_compose_system_with_memory`:
`mem.get('summary', '')` and `mem.get('distance', 1.0)`. -/
structure RecalledMemory where
  summary : String
  distance : ℚ
deriving DecidableEq

/-- Orchestrator configuration: `chunk_size` and the `max_conversation`
cap (`lib/orchestrator.py`, `__init__`). -/
structure Config where
  chunkSize : Nat
  maxConversation : Nat
deriving DecidableEq

/-- Orchestrator-visible mutable state: the live conversation
(`app.conversation`) and the semantic store contents (the ChromaDB
collection, as the list of records added to it in order). -/
structure OState where
  conversation : List Message
  store : List MemoryRecord
deriving DecidableEq

/-! ### String constants from the source -/

def emptyString : String := ""

def spaceString : String := " "

def newlineString : String := "\n"

def commaString : String := ","

def systemStr : String := "system"

def userStr : String := "user"

def assistantStr : String := "assistant"

def summaryLabel : String := "SUMMARY:"

def topicLabel : String := "TOPIC:"

def pointsLabel : String := "POINTS:"

def ellipsisStr : String := "..."

def generalConversationStr : String := "general conversation"

/-! ### Python string primitives

The Python string operations used by the sources, implemented by
structural recursion over the character list of a `String` so that every
definition evaluates inside the kernel.  Semantics follow Python:
`strip` removes leading and trailing whitespace, `split(sep)` keeps
empty pieces, `split()` drops them, `replace` rewrites every
non-overlapping occurrence left to right. -/

/-- Drop leading whitespace characters. -/
def dropLeadingWs : List Char → List Char
  | [] => []
  | c :: rest => if c.isWhitespace then dropLeadingWs rest else c :: rest

/-- Python `str.strip()`. -/
def pyStrip (s : String) : String :=
  ⟨((dropLeadingWs ((dropLeadingWs s.data).reverse)).reverse)⟩

/-- Split a character list at every character satisfying `p`, keeping
empty pieces (the helper behind Python `str.split(sep)`). -/
def splitByAux (p : Char → Bool) (acc : List Char) : List Char → List (List Char)
  | [] => [acc.reverse]
  | c :: rest =>
      if p c then acc.reverse :: splitByAux p [] rest
      else splitByAux p (c :: acc) rest

/-- Python `str.split(sep)` for a one-character separator. -/
def pySplitOnChar (sep : Char) (s : String) : List String :=
  (splitByAux (fun c => c == sep) [] s.data).map (fun l => ⟨l⟩)

/-- Python `str.split()` with no argument: split on whitespace runs,
discarding empty pieces. -/
def pySplit (s : String) : List String :=
  ((splitByAux Char.isWhitespace [] s.data).filter (fun l => l ≠ [])).map (fun l => ⟨l⟩)

/-- Fuel-driven worker for `pyReplace`; the fuel starts at the length of
the subject list, which bounds the number of steps. -/
def replaceFuel (pat rep : List Char) : Nat → List Char → List Char
  | 0, l => l
  | _, [] => []
  | fuel + 1, c :: rest =>
      if pat ≠ [] ∧ pat.isPrefixOf (c :: rest) then
        rep ++ replaceFuel pat rep fuel ((c :: rest).drop pat.length)
      else c :: replaceFuel pat rep fuel rest

/-- Python `str.replace(pat, rep)` (all occurrences, left to right; the
sources only use non-empty patterns). -/
def pyReplace (s pat rep : String) : String :=
  ⟨replaceFuel pat.data rep.data s.data.length s.data⟩

/-- Python `str.startswith(pre)`. -/
def pyStartsWith (s pre : String) : Bool :=
  pre.data.isPrefixOf s.data

/-- Python `str.lower()` (the sources only apply it to ASCII-ish text,
where `Char.toLower` agrees). -/
def pyLower (s : String) : String :=
  ⟨s.data.map Char.toLower⟩

/-- Python `str.upper()`. -/
def pyUpper (s : String) : String :=
  ⟨s.data.map Char.toUpper⟩

/-- Python `s[:n]` on strings. -/
def pyTake (s : String) (n : Nat) : String :=
  ⟨s.data.take n⟩

/-- Python `sep.join(pieces)`. -/
def pyJoin (sep : String) : List String → String
  | [] => emptyString
  | [x] => x
  | x :: rest => x ++ sep ++ pyJoin sep rest

/-- Python `response.split('\n')` into lines, as used by
`_parse_summary_response`. -/
def pySplitLines (s : String) : List String :=
  pySplitOnChar '\n' s

/-! ### `short_term_memory.py` -/

/-- `ShortTermMemory.calculate_importance` (short_term_memory.py,
lines 193-229), translated statement by statement: baseline 0.5, a
length factor, a count factor, a character-variety factor that is only
added when the total content length is positive (the Python guard
`if total_length > 0`), and a final upper clamp `min(score, 1.0)`.
The combined text is `' '.join(...)`, i.e. contents joined by single
spaces. Empty input returns 0.3. -/
def calculate_importance (messages : List Message) : ℚ :=
  if messages.isEmpty then 3/10
  else
    let totalLength : Nat := (messages.map (fun m => m.content.length)).sum
    let avgLength : ℚ := (totalLength : ℚ) / (messages.length : ℚ)
    let score1 : ℚ := 1/2 + min (avgLength / 1000) (1/5)
    let score2 : ℚ := score1 + min ((messages.length : ℚ) * (1/50)) (3/20)
    let score3 : ℚ :=
      if 0 < totalLength then
        let combinedText := pyJoin spaceString (messages.map (fun m => m.content))
        let uniqueChars : Nat := (pyLower combinedText).data.dedup.length
        score2 + min ((uniqueChars : ℚ) / 50) (3/20)
      else score2
    min score3 1

/-- `ShortTermMemory.add_memory_chunk` (short_term_memory.py, lines
66-108): computes importance via `calculate_importance` when none is
supplied, builds the metadata, and appends one record to the
collection.  The uuid/timestamp fields are irrelevant to the claims and
omitted. -/
def addMemoryChunk (store : List MemoryRecord) (summary : String)
    (originalMessages : List Message) (topic : String)
    (importance : Option ℚ) : List MemoryRecord :=
  let imp : ℚ :=
    match importance with
    | none => calculate_importance originalMessages
    | some v => v
  store ++ [⟨summary, topic, imp, originalMessages.length⟩]

/-- The importance eligibility filter of
`ShortTermMemory.query_relevant_memories` (short_term_memory.py, lines
129-139): the `$gte` where-clause is installed only when
`importance_threshold > 0`, and a record passes it iff its importance
is at least the threshold. -/
def passesImportanceFilter (threshold : ℚ) (r : MemoryRecord) : Bool :=
  if 0 < threshold then decide (threshold ≤ r.importance) else true

/-- `get_stats()['count']` (short_term_memory.py, lines 261-286):
the number of stored records. -/
def getStatsCount (store : List MemoryRecord) : Nat :=
  store.length

/-- Default `importance_threshold` from `Orchestrator._load_memory_config`
(orchestrator.py, lines 61-76): 0.3 in every fallback branch. -/
def defaultImportanceThreshold : ℚ := 3/10

/-! ### `summarizer.py` -/

/-- Remove every occurrence of `label` from `line` and strip whitespace:
the Python idiom `line.replace(label, '').strip()` used by
`_parse_summary_response`. -/
def stripLabel (label line : String) : String :=
  pyStrip (pyReplace line label emptyString)

/-- The `POINTS:` branch of `_parse_summary_response`:
`[p.strip() for p in points_str.split(',') if p.strip()]`. -/
def parsePoints (line : String) : List String :=
  ((pySplitOnChar ',' (stripLabel pointsLabel line)).map pyStrip).filter
    (fun p => p ≠ emptyString)

/-- One iteration of the parsing loop in `_parse_summary_response`
(summarizer.py, lines 148-156): strip the line, then test the three
labels in order, overwriting the matching field. -/
def parseLine (acc : SummaryResult) (raw : String) : SummaryResult :=
  let line := pyStrip raw
  if pyStartsWith line summaryLabel then
    { acc with summary := stripLabel summaryLabel line }
  else if pyStartsWith line topicLabel then
    { acc with topic := stripLabel topicLabel line }
  else if pyStartsWith line pointsLabel then
    { acc with keyPoints := parsePoints line }
  else acc

/-- `ConversationSummarizer._parse_summary_response` (summarizer.py,
lines 133-166): fold the line parser over `response.split('\n')`, then
substitute `response.strip()` for the summary when it is still empty. -/
def parseSummaryResponse (response : String) : SummaryResult :=
  let acc := (pySplitLines response).foldl parseLine ⟨emptyString, emptyString, []⟩
  let summary := if acc.summary = emptyString then pyStrip response else acc.summary
  ⟨summary, acc.topic, acc.keyPoints⟩

/-- `ConversationSummarizer._fallback_summary` (summarizer.py, lines
168-196): count user/assistant messages, template a sentence, and take
the topic from the first ten words of the first user message, keeping
the fixed default when no user message exists. -/
def fallbackSummary (messages : List Message) : SummaryResult :=
  let userMsgs := messages.filter (fun m => m.role == userStr)
  let asstMsgs := messages.filter (fun m => m.role == assistantStr)
  let summary :=
    "Exchange of " ++ toString userMsgs.length ++ " user messages and " ++
      toString asstMsgs.length ++ " responses"
  let topic :=
    match userMsgs with
    | [] => generalConversationStr
    | m :: _ =>
        let words := (pySplit m.content).take 10
        pyJoin spaceString words ++
          (if 10 < words.length then ellipsisStr else emptyString)
  ⟨summary, topic, []⟩

/-- One line of `_format_messages_for_summary` (summarizer.py, lines
85-102): skip system messages, truncate bodies longer than 500
characters to 497 plus an ellipsis, and prefix the upper-cased role. -/
def formatLine (m : Message) : Option String :=
  if m.role = systemStr then none
  else
    let content :=
      if 500 < m.content.length then pyTake m.content 497 ++ ellipsisStr
      else m.content
    some (pyUpper m.role ++ ": " ++ content)

/-- `ConversationSummarizer._format_messages_for_summary`. -/
def formatMessagesForSummary (messages : List Message) : String :=
  pyJoin newlineString (messages.filterMap formatLine)

/-- The fixed system prompt of `summarize_messages` (summarizer.py,
lines 55-60). -/
def summarizerSystemPrompt : String :=
  "You are a memory archivist. Your job is to create concise, " ++
    "semantic summaries of conversations for later recall. " ++
    "Focus on key topics, facts, and the emotional tone. " ++
    "Be brief but capture the essence."

/-- The user prompt template of `summarize_messages` (summarizer.py,
lines 62-74). -/
def buildUserPrompt (conversationText : String) : String :=
  "Summarize this conversation exchange in 2-3 sentences:\n\n" ++
    conversationText ++
    "\n\nProvide:\n1. A brief summary (2-3 sentences)\n" ++
    "2. The primary topic (few words)\n3. Key points (comma-separated)\n\n" ++
    "Format as:\nSUMMARY: <summary>\nTOPIC: <topic>\nPOINTS: <points>"

/-- `ConversationSummarizer.summarize_messages` (summarizer.py, lines
29-83).  `callLLM` is the completion provider (`_call_llm`) as an
oracle from the two prompts to either a response text or a transport
failure; empty input short-circuits to the empty result without
consulting the oracle, a provider failure falls back to
`fallbackSummary`. -/
def summarizeMessages (callLLM : String → String → Except Unit String)
    (messages : List Message) : SummaryResult :=
  if messages.isEmpty then ⟨emptyString, emptyString, []⟩
  else
    let conversationText := formatMessagesForSummary messages
    match callLLM summarizerSystemPrompt (buildUserPrompt conversationText) with
    | .ok resp => parseSummaryResponse resp
    | .error _ => fallbackSummary messages

/-! ### `orchestrator.py` -/

/-- Python slice `l[k:]` for a possibly negative `k`: from index `k` for
`k ≥ 0`, and from `len(l) + k` (floored at 0) for `k < 0`. -/
def pySliceFrom (k : Int) (l : List Message) : List Message :=
  if 0 ≤ k then l.drop k.toNat else l.drop ((l.length : Int) + k).toNat

/-- The truncation `[convo[0]] + convo[-(max_conversation-1):]` used by
both fallback branches of `_archive_if_needed` (orchestrator.py, lines
130 and 171) and by `_ask_ai` (vexa.py, line 358).  `convo[0]` is
modelled by `take 1`; the Python expression is only reached with a
non-empty conversation, where the two agree. -/
def truncateConversation (maxLen : Nat) (convo : List Message) : List Message :=
  convo.take 1 ++ pySliceFrom (-((maxLen : Int) - 1)) convo

/-- The substitution `if not summary_text: summary_text = f"Archived
{len(chunk)} messages"` shared by `_archive_if_needed` (orchestrator.py,
lines 153-155) and `_do_memory_force` (command_parser.py, lines
202-204). -/
def archiveSummaryText (res : SummaryResult) (n : Nat) : String :=
  if res.summary = emptyString then "Archived " ++ toString n ++ " messages"
  else res.summary

/-- `Orchestrator._archive_if_needed` (orchestrator.py, lines 117-171).
`memEnabled` is `self.memory_enabled and self.mem is not None`; `summ`
is the outcome of the `try` block's external work (the summarizer call
together with the ChromaDB `add`): `.ok` carries the summarizer's
result, `.error` stands for an exception raised inside the block, in
which case nothing is stored and the policy falls back to truncation
for this turn. -/
def archiveIfNeeded (cfg : Config) (memEnabled : Bool)
    (summ : List Message → Except Unit SummaryResult) (s : OState) : OState :=
  if !memEnabled then
    if cfg.maxConversation < s.conversation.length then
      { s with conversation := truncateConversation cfg.maxConversation s.conversation }
    else s
  else
    let convo := s.conversation
    if convo.length ≤ cfg.maxConversation then s
    else
      let startIdx : Nat := 1
      let endIdx : Nat := min (startIdx + cfg.chunkSize) (convo.length - 1)
      if endIdx ≤ startIdx then s
      else
        let chunkToArchive := (convo.take endIdx).drop startIdx
        match summ chunkToArchive with
        | .ok res =>
            let summaryText := archiveSummaryText res chunkToArchive.length
            { conversation := convo.take startIdx ++ convo.drop endIdx,
              store := addMemoryChunk s.store summaryText chunkToArchive res.topic none }
        | .error _ =>
            if cfg.maxConversation < convo.length then
              { s with conversation := truncateConversation cfg.maxConversation convo }
            else s

/-- The relevance banding of `_compose_system_with_memory`
(orchestrator.py, line 220): `high` below 0.3, `medium` below 0.6,
`low` otherwise. -/
def relevanceOf (distance : ℚ) : String :=
  if distance < 3/10 then "high"
  else if distance < 6/10 then "medium"
  else "low"

/-- One memory line `f"{i}. [{relevance}] {summary}"`
(orchestrator.py, line 221). -/
def memoryLine (i : Nat) (m : RecalledMemory) : String :=
  toString i ++ ". [" ++ relevanceOf m.distance ++ "] " ++ m.summary

/-- `Orchestrator._compose_system_with_memory` (orchestrator.py, lines
193-234), with `datetime.now()` passed in as the string `now`: empty
recall yields base plus the timestamp line; otherwise the block lists
the enumerated items whose summary is non-empty (the index keeps
counting over skipped items), and if every summary is empty the block
is dropped again. -/
def composeSystemWithMemory (base now : String) (recalled : List RecalledMemory) : String :=
  if recalled.isEmpty then base ++ "\n\nCurrent time: " ++ now
  else
    let memoryLines := (List.enumFrom 1 recalled).filterMap
      (fun p => if p.2.summary = emptyString then none else some (memoryLine p.1 p.2))
    if memoryLines.isEmpty then base ++ "\n\nCurrent time: " ++ now
    else
      base ++ "\n\n" ++
        "[Recalled from past conversations â€” reference as needed]\n" ++
        pyJoin newlineString memoryLines ++
        "\n[/Recalled memories]\n\n" ++
        "Current time: " ++ now

/-- The outgoing message list of `process_prompt` (orchestrator.py,
lines 96-102): composed system entry, then `conversation[1:]`, then the
new user entry. -/
def buildPayload (systemContent userInput : String) (conversation : List Message) :
    List Message :=
  ⟨systemStr, systemContent⟩ :: (conversation.drop 1 ++ [⟨userStr, userInput⟩])

/-- `Orchestrator.process_prompt` (orchestrator.py, lines 78-111).
`recalled` is the list returned by `_recall` (empty when memory is
disabled, matching `_recall`'s first branch); `complete` is
`app._ask_ai_with_context` as an oracle.  On a provider failure the
exception propagates: the commit appends never run and the caller sees
the error together with the post-archival state. -/
def processPrompt (cfg : Config) (memEnabled : Bool)
    (summ : List Message → Except Unit SummaryResult)
    (recalled : List RecalledMemory) (now : String)
    (complete : List Message → Except String String)
    (systemPrompt userInput : String) (s : OState) :
    Except String String × OState :=
  let s1 := archiveIfNeeded cfg memEnabled summ s
  let recalled1 := if memEnabled then recalled else []
  let sysContent := composeSystemWithMemory systemPrompt now recalled1
  match complete (buildPayload sysContent userInput s1.conversation) with
  | .error e => (.error e, s1)
  | .ok reply =>
      (.ok reply,
        ⟨s1.conversation ++ [⟨userStr, userInput⟩, ⟨assistantStr, reply⟩], s1.store⟩)

/-! ### `command_parser.py` -/

/-- `CommandParser.cmd_memory_force` together with its worker
`_do_memory_force` (command_parser.py, lines 158-234), run to
completion: with at most `system + 5` entries nothing happens;
otherwise everything between index 1 and `len - 5` is summarized
(oracle `summ`, whose `.error` stands for an exception in the worker's
`try` block before the conversation is reassigned) and stored as one
chunk, and the conversation becomes `[convo[0]] + convo[archive_end:]`. -/
def memoryForce (summ : List Message → Except Unit SummaryResult) (s : OState) : OState :=
  let convo := s.conversation
  if convo.length ≤ 6 then s
  else
    let archiveEnd := convo.length - 5
    if archiveEnd ≤ 1 then s
    else
      let messagesToArchive := (convo.take archiveEnd).drop 1
      match summ messagesToArchive with
      | .error _ => s
      | .ok res =>
          let summaryText := archiveSummaryText res messagesToArchive.length
          { conversation := convo.take 1 ++ convo.drop archiveEnd,
            store := addMemoryChunk s.store summaryText messagesToArchive res.topic none }

/-- The conversation-mutating operations of the memory subsystem named
by the spec's entry-0 invariant: one full `process_prompt` turn (which
includes automatic chunk archival and both truncation fallbacks) and a
completed `/memory-force` run.  Each constructor carries its external
oracles as data. -/
inductive MemOp where
  | turn (cfg : Config) (memEnabled : Bool)
      (summ : List Message → Except Unit SummaryResult)
      (recalled : List RecalledMemory) (now systemPrompt userInput : String)
      (complete : List Message → Except String String) : MemOp
  | force (summ : List Message → Except Unit SummaryResult) : MemOp

/-- Apply one memory-subsystem operation to the orchestrator state. -/
def applyMemOp : MemOp → OState → OState
  | .turn cfg memEnabled summ recalled now sys input complete, s =>
      (processPrompt cfg memEnabled summ recalled now complete sys input s).2
  | .force summ, s => memoryForce summ s

/-! ### Spec-side formulations

Definitions that follow the specification's (or a claim's) wording
rather than the source, for comparison against the source-derived
definitions above. -/

/-- The importance formula exactly as the claim words it: baseline 0.5
plus three independently clamped adjustments, where the variety factor
counts distinct lowercased characters of the *concatenated* content
(plain juxtaposition) and is added unconditionally, with the final
result clamped to [0,1]. -/
def importanceClaimFormula (messages : List Message) : ℚ :=
  if messages.isEmpty then 3/10
  else
    let totalLength : Nat := (messages.map (fun m => m.content.length)).sum
    let mean : ℚ := (totalLength : ℚ) / (messages.length : ℚ)
    let concatenated := pyJoin emptyString (messages.map (fun m => m.content))
    let distinct : Nat := (pyLower concatenated).data.dedup.length
    let raw : ℚ := 1/2 + min (mean / 1000) (1/5)
        + min ((messages.length : ℚ) * (1/50)) (3/20)
        + min ((distinct : ℚ) / 50) (3/20)
    max 0 (min raw 1)

/-- The amended importance formula: as the claim, except that the
variety factor joins the contents with single spaces (Python
`' '.join`) and is only added when the total content length is
positive; the upper clamp alone suffices because the sum is at least
the 0.5 baseline. -/
def importanceAmendedFormula (messages : List Message) : ℚ :=
  if messages.isEmpty then 3/10
  else
    let totalLength : Nat := (messages.map (fun m => m.content.length)).sum
    let mean : ℚ := (totalLength : ℚ) / (messages.length : ℚ)
    let varietyTerm : ℚ :=
      if 0 < totalLength then
        min (((pyLower (pyJoin spaceString (messages.map (fun m => m.content)))).data.dedup.length : ℚ) / 50)
          (3/20)
      else 0
    min (1/2 + min (mean / 1000) (1/5)
          + min ((messages.length : ℚ) * (1/50)) (3/20) + varietyTerm) 1

/-! ### Properties of the importance scorer -/

/-- On a non-empty input the scorer computes exactly the amended
formula. -/
theorem importance_eq_amended (messages : List Message) (h : messages ≠ []) :
    calculate_importance messages = importanceAmendedFormula messages := by
  have hne : messages.isEmpty = false := by simpa [List.isEmpty_iff] using h
  simp only [calculate_importance, importanceAmendedFormula, hne, Bool.false_eq_true, if_false]
  split
  · ring_nf
  · ring_nf

/-- On a non-empty input every adjustment is non-negative, so the score
stays at or above the 0.5 baseline. -/
theorem importance_ge_half (messages : List Message) (h : messages ≠ []) :
    1/2 ≤ calculate_importance messages := by
  have hne : messages.isEmpty = false := by simpa [List.isEmpty_iff] using h
  simp only [calculate_importance, hne, Bool.false_eq_true, if_false]
  have t1 : (0:ℚ) ≤ min (((((messages.map (fun m => m.content.length)).sum : Nat) : ℚ) / ((messages.length : Nat) : ℚ)) / 1000) (1/5) :=
    le_min (by positivity) (by norm_num)
  have t2 : (0:ℚ) ≤ min ((messages.length : ℚ) * (1/50)) (3/20) :=
    le_min (by positivity) (by norm_num)
  refine le_min ?_ (by norm_num)
  split
  · have t3 : (0:ℚ) ≤ min (((pyLower (pyJoin spaceString (messages.map (fun m => m.content)))).data.dedup.length : ℚ) / 50) (3/20) :=
      le_min (by positivity) (by norm_num)
    linarith
  · linarith

/-- The final clamp keeps every score at or below 1. -/
theorem importance_le_one (messages : List Message) : calculate_importance messages ≤ 1 := by
  by_cases h : messages.isEmpty
  · simp only [calculate_importance, h, if_true]
    norm_num
  · simp only [calculate_importance, h, Bool.false_eq_true, if_false]
    exact min_le_right _ _

/-- Scores are never negative. -/
theorem importance_nonneg (messages : List Message) : 0 ≤ calculate_importance messages := by
  by_cases h : messages = []
  · subst h
    simp only [calculate_importance, List.isEmpty_nil, if_true]
    norm_num
  · linarith [importance_ge_half messages h]

/-- Claim C4 (amended): `calculate_importance` returns exactly 0.3 on
the empty list; on every non-empty list it returns the 0.5 baseline
plus the clamped length factor plus the clamped count factor plus —
when the total content length is positive — the clamped variety factor
over the space-joined lowercased contents, clamped above at 1; and the
result lies in [0,1] for all inputs. -/
theorem calculate_importance_spec (messages : List Message) :
    (messages = [] → calculate_importance messages = 3/10) ∧
    (messages ≠ [] → calculate_importance messages = importanceAmendedFormula messages) ∧
    0 ≤ calculate_importance messages ∧ calculate_importance messages ≤ 1 := by
  refine ⟨?_, fun h => importance_eq_amended _ h, importance_nonneg _, importance_le_one _⟩
  intro h
  subst h
  simp only [calculate_importance, List.isEmpty_nil, if_true]

/-- Witness for claim C4's theorem at the one-message input `user: hi`. -/
theorem calculate_importance_spec_witness :
    calculate_importance [⟨userStr, "hi"⟩] = importanceAmendedFormula [⟨userStr, "hi"⟩] ∧
    0 ≤ calculate_importance [⟨userStr, "hi"⟩] :=
  ⟨(calculate_importance_spec [⟨userStr, "hi"⟩]).2.1 (by decide),
    (calculate_importance_spec [⟨userStr, "hi"⟩]).2.2.1⟩

/-- Counterexample to claim C4 as stated: on the two messages `a`, `b`
the code scores 0.601 (the space-joined text `a b` has three distinct
characters) while the claimed formula over the plainly concatenated
content `ab` gives 0.581. -/
theorem calculate_importance_claim_counterexample :
    calculate_importance [⟨userStr, "a"⟩, ⟨userStr, "b"⟩] ≠
      importanceClaimFormula [⟨userStr, "a"⟩, ⟨userStr, "b"⟩] := by
  have hL : calculate_importance [⟨userStr, "a"⟩, ⟨userStr, "b"⟩] = 601/1000 := by
    have h1 : (([⟨userStr, "a"⟩, ⟨userStr, "b"⟩] : List Message).map (fun m => m.content.length)).sum = 2 := by decide
    have h2 : ((pyLower (pyJoin spaceString (([⟨userStr, "a"⟩, ⟨userStr, "b"⟩] : List Message).map (fun m => m.content)))).data.dedup.length) = 3 := by decide
    simp only [calculate_importance, h1, h2, List.isEmpty, List.length]
    norm_num
  have hR : importanceClaimFormula [⟨userStr, "a"⟩, ⟨userStr, "b"⟩] = 581/1000 := by
    have h1 : (([⟨userStr, "a"⟩, ⟨userStr, "b"⟩] : List Message).map (fun m => m.content.length)).sum = 2 := by decide
    have h2 : ((pyLower (pyJoin emptyString (([⟨userStr, "a"⟩, ⟨userStr, "b"⟩] : List Message).map (fun m => m.content)))).data.dedup.length) = 2 := by decide
    simp only [importanceClaimFormula, h1, h2, List.isEmpty, List.length]
    norm_num
  rw [hL, hR]
  norm_num

/-- Claim C9: a record archived without an explicit importance gets
`calculate_importance` of its (non-empty) chunk, which is at least the
0.5 baseline, so the default 0.3 eligibility filter of
`query_relevant_memories` never excludes it. -/
theorem archived_record_passes_default_filter (messages : List Message)
    (h : messages ≠ []) (store : List MemoryRecord) (summary topic : String) :
    addMemoryChunk store summary messages topic none =
      store ++ [⟨summary, topic, calculate_importance messages, messages.length⟩] ∧
    1/2 ≤ calculate_importance messages ∧
    passesImportanceFilter defaultImportanceThreshold
      ⟨summary, topic, calculate_importance messages, messages.length⟩ = true := by
  refine ⟨rfl, importance_ge_half _ h, ?_⟩
  have h2 := importance_ge_half messages h
  simp only [passesImportanceFilter, defaultImportanceThreshold]
  rw [if_pos (by norm_num)]
  simp only [decide_eq_true_eq]
  linarith

/-- Witness for claim C9's theorem on the one-message chunk
`user: hello` added to an empty store. -/
theorem archived_record_passes_default_filter_witness :
    addMemoryChunk [] emptyString [⟨userStr, "hello"⟩] emptyString none =
      [] ++ [⟨emptyString, emptyString, calculate_importance [⟨userStr, "hello"⟩], 1⟩] ∧
    1/2 ≤ calculate_importance [⟨userStr, "hello"⟩] ∧
    passesImportanceFilter defaultImportanceThreshold
      ⟨emptyString, emptyString, calculate_importance [⟨userStr, "hello"⟩], 1⟩ = true :=
  archived_record_passes_default_filter [⟨userStr, "hello"⟩] (by decide) [] emptyString emptyString

/-! ### Properties of the summary parser -/

/-- The value carried by the last `SUMMARY:` line of a line list, as the
parser's overwrite semantics produce it: later lines win, and the value
is the line with every occurrence of the label removed, stripped. -/
def lastSummaryValue : List String → Option String
  | [] => none
  | x :: xs =>
      match lastSummaryValue xs with
      | some v => some v
      | none =>
          let l := pyStrip x
          if pyStartsWith l summaryLabel then some (stripLabel summaryLabel l) else none

/-- The value carried by the last `TOPIC:` line (a line already matching
`SUMMARY:` takes that branch first and never sets the topic). -/
def lastTopicValue : List String → Option String
  | [] => none
  | x :: xs =>
      match lastTopicValue xs with
      | some v => some v
      | none =>
          let l := pyStrip x
          if !pyStartsWith l summaryLabel && pyStartsWith l topicLabel then
            some (stripLabel topicLabel l)
          else none

/-- The key-point list carried by the last `POINTS:` line. -/
def lastPointsValue : List String → Option (List String)
  | [] => none
  | x :: xs =>
      match lastPointsValue xs with
      | some v => some v
      | none =>
          let l := pyStrip x
          if !pyStartsWith l summaryLabel && !pyStartsWith l topicLabel
              && pyStartsWith l pointsLabel then
            some (parsePoints l)
          else none

/-- The left fold of the line parser realizes last-match-wins for the
summary field. -/
theorem foldl_parseLine_summary (lines : List String) (acc : SummaryResult) :
    (lines.foldl parseLine acc).summary = (lastSummaryValue lines).getD acc.summary := by
  induction lines generalizing acc with
  | nil => rfl
  | cons x xs ih =>
      simp only [List.foldl_cons, ih, lastSummaryValue]
      cases hxs : lastSummaryValue xs with
      | some v => simp
      | none =>
          simp only [Option.getD_none, parseLine]
          split_ifs with h1 h2 h3 <;> simp

/-- The left fold of the line parser realizes last-match-wins for the
topic field. -/
theorem foldl_parseLine_topic (lines : List String) (acc : SummaryResult) :
    (lines.foldl parseLine acc).topic = (lastTopicValue lines).getD acc.topic := by
  induction lines generalizing acc with
  | nil => rfl
  | cons x xs ih =>
      simp only [List.foldl_cons, ih, lastTopicValue]
      cases hxs : lastTopicValue xs with
      | some v => simp
      | none =>
          simp only [Option.getD_none, parseLine]
          split_ifs with h1 h2 h3 <;> simp_all

/-- The left fold of the line parser realizes last-match-wins for the
key-point field. -/
theorem foldl_parseLine_points (lines : List String) (acc : SummaryResult) :
    (lines.foldl parseLine acc).keyPoints = (lastPointsValue lines).getD acc.keyPoints := by
  induction lines generalizing acc with
  | nil => rfl
  | cons x xs ih =>
      simp only [List.foldl_cons, ih, lastPointsValue]
      cases hxs : lastPointsValue xs with
      | some v => simp
      | none =>
          simp only [Option.getD_none, parseLine]
          split_ifs with h1 h2 h3 <;> simp_all

/-- A parsed summary can only be empty when the whole response strips to
the empty string (the final `if not summary` substitution). -/
theorem parse_summary_empty (response : String)
    (h : (parseSummaryResponse response).summary = emptyString) :
    pyStrip response = emptyString := by
  simp only [parseSummaryResponse] at h
  split at h
  · exact h
  · exact absurd h (by assumption)

/-- Appending the empty string is the identity. -/
theorem str_append_empty (s : String) : s ++ emptyString = s :=
  String.ext (by rw [String.data_append]; exact List.append_nil _)

/-- The fallback summary sentence is never the empty string. -/
theorem fallback_summary_ne_empty (messages : List Message) :
    (fallbackSummary messages).summary ≠ emptyString := by
  simp only [fallbackSummary]
  intro h
  have hl := congrArg String.length h
  simp only [String.length_append] at hl
  have h1 : ("Exchange of " : String).length = 12 := by decide
  have h2 : emptyString.length = 0 := by decide
  omega

/-- Claim C5: when the completion provider fails on a non-empty message
list, `summarize_messages` returns the deterministic local fallback:
a non-empty templated sentence counting user and assistant messages as
the summary, a topic made of the first ten whitespace-separated words
of the first user message (the `...` suffix can never trigger since at
most ten words are taken), and the fixed default topic exactly when no
user message is present; the fallback is a total function of the
messages alone, so it cannot fail and consults no external service. -/
theorem summarize_fallback_spec (messages : List Message) (h : messages ≠ [])
    (r : SummaryResult)
    (hr : r = summarizeMessages (fun _ _ => Except.error ()) messages) :
    r = fallbackSummary messages ∧
    r.summary = "Exchange of " ++
        toString (messages.filter (fun m => m.role == userStr)).length ++
        " user messages and " ++
        toString (messages.filter (fun m => m.role == assistantStr)).length ++
        " responses" ∧
    r.summary ≠ emptyString ∧
    (messages.filter (fun m => m.role == userStr) = [] → r.topic = generalConversationStr) ∧
    (∀ m ms, messages.filter (fun m => m.role == userStr) = m :: ms →
        r.topic = pyJoin spaceString ((pySplit m.content).take 10)) ∧
    r.keyPoints = [] := by
  have hne : messages.isEmpty = false := by simpa [List.isEmpty_iff] using h
  have hfb : r = fallbackSummary messages := by
    rw [hr]
    simp only [summarizeMessages, hne, Bool.false_eq_true, if_false]
  subst hfb
  refine ⟨rfl, rfl, fallback_summary_ne_empty messages, ?_, ?_, rfl⟩
  · intro hu
    simp only [fallbackSummary, hu]
  · intro m ms hu
    simp only [fallbackSummary, hu]
    have hlen : ((pySplit m.content).take 10).length ≤ 10 := by
      rw [List.length_take]
      omega
    rw [if_neg (by omega)]
    exact str_append_empty _

/-- Witness for claim C5's theorem: a single assistant message has no
user message, so the fallback topic is the fixed default. -/
theorem summarize_fallback_spec_witness :
    summarizeMessages (fun _ _ => Except.error ()) [⟨assistantStr, "x"⟩] =
      fallbackSummary [⟨assistantStr, "x"⟩] ∧
    (summarizeMessages (fun _ _ => Except.error ()) [⟨assistantStr, "x"⟩]).topic =
      generalConversationStr := by
  have h := summarize_fallback_spec [⟨assistantStr, "x"⟩] (by decide)
    (summarizeMessages (fun _ _ => Except.error ()) [⟨assistantStr, "x"⟩]) rfl
  exact ⟨h.1, h.2.2.2.1 (by decide)⟩

/-- Claim C8 (amended): parsing is line-oriented with last-match-wins
overwrite semantics; each labelled line contributes the line with every
occurrence of its label removed and whitespace stripped (for `POINTS:`
additionally split on commas, trimmed, empties dropped); when no
`SUMMARY:` line contributes a non-empty value the whole stripped
response becomes the summary, so the parsed summary is empty only for
a whitespace-only response. -/
theorem parse_summary_response_spec (response : String) :
    (parseSummaryResponse response).summary =
      (match lastSummaryValue (pySplitLines response) with
       | some v => if v = emptyString then pyStrip response else v
       | none => pyStrip response) ∧
    (parseSummaryResponse response).topic =
      (lastTopicValue (pySplitLines response)).getD emptyString ∧
    (parseSummaryResponse response).keyPoints =
      (lastPointsValue (pySplitLines response)).getD [] ∧
    ((parseSummaryResponse response).summary = emptyString →
      pyStrip response = emptyString) := by
  refine ⟨?_, ?_, ?_, parse_summary_empty response⟩
  · show (if ((pySplitLines response).foldl parseLine ⟨emptyString, emptyString, []⟩).summary = emptyString then pyStrip response else ((pySplitLines response).foldl parseLine ⟨emptyString, emptyString, []⟩).summary) = _
    rw [foldl_parseLine_summary]
    cases h : lastSummaryValue (pySplitLines response) with
    | none => simp
    | some v => simp only [Option.getD_some]
  · show ((pySplitLines response).foldl parseLine ⟨emptyString, emptyString, []⟩).topic = _
    rw [foldl_parseLine_topic]
  · show ((pySplitLines response).foldl parseLine ⟨emptyString, emptyString, []⟩).keyPoints = _
    rw [foldl_parseLine_points]

/-- Witness for claim C8's theorem: the two-space response parses to an
empty summary, so the response indeed strips to empty. -/
theorem parse_summary_response_spec_witness :
    pyStrip "  " = emptyString :=
  (parse_summary_response_spec "  ").2.2.2 (by decide)

/-- Counterexample to claim C8 as stated: the provider call succeeds
with the whitespace-only response of three spaces on a non-empty
message list, yet the parsed summary is the empty string — refuting
"never empty on success". -/
theorem parse_summary_never_empty_counterexample :
    (summarizeMessages (fun _ _ => Except.ok "   ") [⟨userStr, "q"⟩]).summary =
      emptyString ∧ ([⟨userStr, "q"⟩] : List Message) ≠ [] :=
  ⟨by decide, by decide⟩

/-- Claim C10 (amended): on the empty message list `summarize_messages`
returns the all-empty result for every provider oracle — in particular
without consulting the provider; and an empty summary arises only from
the empty input or from a successful provider response that strips to
the empty string. -/
theorem summarize_empty_spec (callLLM : String → String → Except Unit String)
    (messages : List Message) :
    (messages = [] → summarizeMessages callLLM messages = ⟨emptyString, emptyString, []⟩) ∧
    ((summarizeMessages callLLM messages).summary = emptyString →
      messages = [] ∨
      ∃ resp,
        callLLM summarizerSystemPrompt (buildUserPrompt (formatMessagesForSummary messages)) =
          Except.ok resp ∧ pyStrip resp = emptyString) := by
  constructor
  · intro h
    subst h
    rfl
  · intro h
    by_cases hm : messages = []
    · exact Or.inl hm
    · right
      have hne : messages.isEmpty = false := by simpa [List.isEmpty_iff] using hm
      simp only [summarizeMessages, hne, Bool.false_eq_true, if_false] at h
      cases hc : callLLM summarizerSystemPrompt (buildUserPrompt (formatMessagesForSummary messages)) with
      | ok resp =>
          rw [hc] at h
          exact ⟨resp, rfl, parse_summary_empty resp h⟩
      | error e =>
          rw [hc] at h
          exact absurd h (fallback_summary_ne_empty messages)

/-- Witness for claim C10's theorem at the empty input. -/
theorem summarize_empty_spec_witness :
    summarizeMessages (fun _ _ => Except.ok emptyString) [] =
      ⟨emptyString, emptyString, []⟩ :=
  (summarize_empty_spec (fun _ _ => Except.ok emptyString) []).1 rfl

/-- Counterexample to claim C10 as stated: a successful provider call
returning the empty response on the non-empty input `user: hello` also
produces an empty summary, so the empty input is not the only such
case. -/
theorem summarize_empty_claim_counterexample :
    (summarizeMessages (fun _ _ => Except.ok emptyString) [⟨userStr, "hello"⟩]).summary =
      emptyString ∧ ([⟨userStr, "hello"⟩] : List Message) ≠ [] :=
  ⟨by decide, by decide⟩

/-! ### Properties of system-prompt composition -/

/-- The relevance banding exactly as the spec words it. -/
def bandClaim (d : ℚ) : String :=
  if d < 3/10 then "high" else if d < 6/10 then "medium" else "low"

/-- One composed memory line following the spec's format
`<index>. [<relevance>] <summary>`. -/
def memoryLineClaim (i : Nat) (m : RecalledMemory) : String :=
  toString i ++ ". [" ++ bandClaim m.distance ++ "] " ++ m.summary

/-- The composed system content with no memory block: base prompt plus
the timestamp line. -/
def composePlain (base now : String) : String :=
  base ++ "\n\nCurrent time: " ++ now

/-- The composed system content as the spec describes it when recall
returned items: base prompt, delimited block listing every item in
store order with indices from 1, closing delimiter, timestamp line. -/
def composeBlockExpected (base now : String) (recalled : List RecalledMemory) : String :=
  base ++ "\n\n" ++
    "[Recalled from past conversations â€” reference as needed]\n" ++
    pyJoin newlineString ((List.enumFrom 1 recalled).map (fun p => memoryLineClaim p.1 p.2)) ++
    "\n[/Recalled memories]\n\n" ++
    "Current time: " ++ now

/-- The spec-side line format coincides with the code's line builder. -/
theorem memory_line_claim_eq (i : Nat) (m : RecalledMemory) :
    memoryLineClaim i m = memoryLine i m := rfl

/-- Members of an enumerated list are members of the list. -/
theorem snd_mem_of_mem_enumFrom {α : Type} {l : List α} :
    ∀ {i : Nat} {p : Nat × α}, p ∈ List.enumFrom i l → p.2 ∈ l := by
  induction l with
  | nil => intro i p h; cases h
  | cons a as ih =>
      intro i p h
      rcases List.mem_cons.mp h with h1 | h2
      · subst h1; exact List.mem_cons_self a as
      · exact List.mem_cons_of_mem a (ih h2)

/-- When every summary is non-empty the composer's filter keeps every
enumerated line. -/
theorem filter_map_lines_of_nonempty (l : List (Nat × RecalledMemory))
    (hall : ∀ p ∈ l, p.2.summary ≠ emptyString) :
    l.filterMap (fun p => if p.2.summary = emptyString then none else some (memoryLine p.1 p.2)) =
      l.map (fun p => memoryLine p.1 p.2) := by
  induction l with
  | nil => rfl
  | cons x xs ih =>
      have hx : x.2.summary ≠ emptyString := hall x (List.mem_cons_self x xs)
      simp only [List.filterMap_cons, List.map_cons, if_neg hx]
      rw [ih (fun p hp => hall p (List.mem_cons_of_mem x hp))]

/-- The summary text stored by both archival sites is never empty: an
empty summarizer result is replaced by the `Archived N messages`
template. -/
theorem archive_summary_text_ne_empty (res : SummaryResult) (n : Nat) :
    archiveSummaryText res n ≠ emptyString := by
  simp only [archiveSummaryText]
  split
  · intro h
    have hl := congrArg String.length h
    simp only [String.length_append] at hl
    have h1 : ("Archived " : String).length = 9 := by decide
    have h2 : emptyString.length = 0 := by decide
    omega
  · assumption

/-- Automatic archival preserves the invariant that every stored record
carries a non-empty summary (so recalled items always have non-empty
summaries). -/
theorem archive_store_summaries_ne_empty (cfg : Config) (memEnabled : Bool)
    (summ : List Message → Except Unit SummaryResult) (s : OState)
    (hs : ∀ r ∈ s.store, r.summary ≠ emptyString) :
    ∀ r ∈ (archiveIfNeeded cfg memEnabled summ s).store, r.summary ≠ emptyString := by
  simp only [archiveIfNeeded]
  cases memEnabled with
  | false =>
      simp only [Bool.not_false, if_true]
      split <;> exact hs
  | true =>
      simp only [Bool.not_true, Bool.false_eq_true, if_false]
      by_cases hc : s.conversation.length ≤ cfg.maxConversation
      · rw [if_pos hc]; exact hs
      · rw [if_neg hc]
        by_cases hidx : min (1 + cfg.chunkSize) (s.conversation.length - 1) ≤ 1
        · rw [if_pos hidx]; exact hs
        · rw [if_neg hidx]
          cases hsum : summ ((s.conversation.take
              (min (1 + cfg.chunkSize) (s.conversation.length - 1))).drop 1) with
          | ok res =>
              intro r hr
              simp only [addMemoryChunk] at hr
              rcases List.mem_append.mp hr with h1 | h2
              · exact hs r h1
              · rcases List.mem_singleton.mp h2 with rfl
                exact archive_summary_text_ne_empty res _
          | error e =>
              by_cases hgt : cfg.maxConversation < s.conversation.length
              · rw [if_pos hgt]
                exact hs
              · rw [if_neg hgt]
                exact hs

/-- Manual forced archival preserves the non-empty-summary store
invariant as well. -/
theorem force_store_summaries_ne_empty
    (summ : List Message → Except Unit SummaryResult) (s : OState)
    (hs : ∀ r ∈ s.store, r.summary ≠ emptyString) :
    ∀ r ∈ (memoryForce summ s).store, r.summary ≠ emptyString := by
  simp only [memoryForce]
  by_cases h6 : s.conversation.length ≤ 6
  · rw [if_pos h6]; exact hs
  · rw [if_neg h6]
    by_cases he : s.conversation.length - 5 ≤ 1
    · rw [if_pos he]; exact hs
    · rw [if_neg he]
      cases hsum : summ ((s.conversation.take (s.conversation.length - 5)).drop 1) with
      | error e => exact hs
      | ok res =>
          intro r hr
          simp only [addMemoryChunk] at hr
          rcases List.mem_append.mp hr with h1 | h2
          · exact hs r h1
          · rcases List.mem_singleton.mp h2 with rfl
            exact archive_summary_text_ne_empty res _

/-- Claim C6: composing with an empty recall yields the base prompt
followed only by the timestamp line; composing with a non-empty recall
whose items carry non-empty summaries (as every item recalled from this
program's store does, by the two store-invariant lemmas above) yields
the base prompt, the delimited block listing every item in store order
as `<index>. [<relevance>] <summary>` with the high/medium/low banding
at 0.3 and 0.6 and no filtering by band, and the closing timestamp
line. -/
theorem compose_system_with_memory_spec (base now : String)
    (recalled : List RecalledMemory) :
    (recalled = [] → composeSystemWithMemory base now recalled = composePlain base now) ∧
    ((∀ m ∈ recalled, m.summary ≠ emptyString) → recalled ≠ [] →
      composeSystemWithMemory base now recalled = composeBlockExpected base now recalled) := by
  constructor
  · intro h
    subst h
    rfl
  · intro hall hne
    have hne' : recalled.isEmpty = false := by simpa [List.isEmpty_iff] using hne
    have hall' : ∀ p ∈ List.enumFrom 1 recalled, p.2.summary ≠ emptyString := by
      intro p hp
      exact hall p.2 (snd_mem_of_mem_enumFrom hp)
    simp only [composeSystemWithMemory, hne', Bool.false_eq_true, if_false,
      filter_map_lines_of_nonempty _ hall']
    have hmaps : (List.enumFrom 1 recalled).map (fun p => memoryLine p.1 p.2) ≠ [] := by
      cases recalled with
      | nil => exact absurd rfl hne
      | cons a as => simp [List.enumFrom]
    have hmaps' : ((List.enumFrom 1 recalled).map (fun p => memoryLine p.1 p.2)).isEmpty = false := by
      simpa [List.isEmpty_iff] using hmaps
    rw [hmaps']
    simp only [composeBlockExpected, Bool.false_eq_true, if_false]
    rfl

/-- Witness for claim C6's theorem on one recalled item with a
non-empty summary. -/
theorem compose_system_with_memory_spec_witness :
    composeSystemWithMemory "base" "T" [⟨"mem one", 1/4⟩] =
      composeBlockExpected "base" "T" [⟨"mem one", 1/4⟩] :=
  (compose_system_with_memory_spec "base" "T" [⟨"mem one", 1/4⟩]).2
    (by decide) (by decide)

/-! ### Properties of the archival policy and the turn cycle -/

/-- Truncation to the cap produces exactly `maxLen` entries whenever the
conversation exceeds the cap and the cap is at least 2. -/
theorem truncate_length (maxLen : Nat) (convo : List Message)
    (h2 : 2 ≤ maxLen) (hlen : maxLen < convo.length) :
    (truncateConversation maxLen convo).length = maxLen := by
  simp only [truncateConversation, pySliceFrom]
  rw [if_neg (by omega)]
  simp only [List.length_append, List.length_take, List.length_drop]
  have ht : ((convo.length : Int) + -((maxLen : Int) - 1)).toNat = convo.length - (maxLen - 1) := by
    omega
  rw [ht]
  omega

/-- After the per-turn archival step the conversation is within the cap,
provided `chunk_size ≥ 2`, `max_conversation_length ≥ 2`, and the
pre-state exceeded the cap by at most the two entries of the previous
commit. -/
theorem archive_length_le (cfg : Config) (memEnabled : Bool)
    (summ : List Message → Except Unit SummaryResult) (s : OState)
    (hck : 2 ≤ cfg.chunkSize) (hmx : 2 ≤ cfg.maxConversation)
    (hlen : s.conversation.length ≤ cfg.maxConversation + 2) :
    (archiveIfNeeded cfg memEnabled summ s).conversation.length ≤ cfg.maxConversation := by
  simp only [archiveIfNeeded]
  cases memEnabled with
  | false =>
      simp only [Bool.not_false, if_true]
      by_cases hc : cfg.maxConversation < s.conversation.length
      · rw [if_pos hc]
        rw [truncate_length _ _ hmx hc]
      · rw [if_neg hc]
        omega
  | true =>
      simp only [Bool.not_true, Bool.false_eq_true, if_false]
      by_cases hc : s.conversation.length ≤ cfg.maxConversation
      · rw [if_pos hc]
        exact hc
      · rw [if_neg hc]
        have hgt : cfg.maxConversation < s.conversation.length := by omega
        rw [if_neg (show ¬ (min (1 + cfg.chunkSize) (s.conversation.length - 1) ≤ 1) by omega)]
        cases hs : summ ((s.conversation.take (min (1 + cfg.chunkSize) (s.conversation.length - 1))).drop 1) with
        | ok res =>
            simp only [List.length_append, List.length_take, List.length_drop]
            omega
        | error e =>
            rw [if_pos hgt]
            rw [truncate_length _ _ hmx hgt]

/-- Claim C1 (amended): the archival step archives at most one chunk
per turn (an `if`, not a `while`); nevertheless, provided
`chunk_size ≥ 2` (default 4) and `max_conversation_length ≥ 2`, every
completed turn — any summarizer/store outcome, any completion outcome,
memory enabled or not — maps a conversation of length at most
`max_conversation_length + 2` to one of length at most
`max_conversation_length + 2`: after any completed turn the length
exceeds the cap only by the at most two entries of the most recent
commit. -/
theorem turn_length_invariant (cfg : Config) (memEnabled : Bool)
    (summ : List Message → Except Unit SummaryResult)
    (recalled : List RecalledMemory) (now : String)
    (complete : List Message → Except String String)
    (sys input : String) (s : OState)
    (hck : 2 ≤ cfg.chunkSize) (hmx : 2 ≤ cfg.maxConversation)
    (hlen : s.conversation.length ≤ cfg.maxConversation + 2) :
    (processPrompt cfg memEnabled summ recalled now complete sys input s).2.conversation.length
      ≤ cfg.maxConversation + 2 := by
  have harch := archive_length_le cfg memEnabled summ s hck hmx hlen
  simp only [processPrompt]
  cases hc : complete (buildPayload
      (composeSystemWithMemory sys now (if memEnabled then recalled else []))
      input (archiveIfNeeded cfg memEnabled summ s).conversation) with
  | error e => simpa using by omega
  | ok reply =>
      simp only [List.length_append]
      simp only [List.length_cons, List.length_nil]
      omega

/-- Witness for claim C1's theorem: a seven-entry conversation with the
default chunk size 4 and cap 5 stays within `5 + 2` after a successful
turn. -/
theorem turn_length_invariant_witness :
    (processPrompt ⟨4, 5⟩ true (fun _ => Except.ok ⟨"s", "t", []⟩) [] "T"
        (fun _ => Except.ok "r") "P" "hi"
        ⟨⟨systemStr, "p"⟩ :: List.replicate 6 ⟨userStr, "x"⟩, []⟩).2.conversation.length
      ≤ 5 + 2 :=
  turn_length_invariant ⟨4, 5⟩ true (fun _ => Except.ok ⟨"s", "t", []⟩) [] "T"
    (fun _ => Except.ok "r") "P" "hi"
    ⟨⟨systemStr, "p"⟩ :: List.replicate 6 ⟨userStr, "x"⟩, []⟩
    (by decide) (by decide) (by decide)

/-- One fully successful turn with `chunk_size = 1` and
`max_conversation_length = 3`, used to refute claim C1 as stated. -/
def c1Turn (s : OState) : OState :=
  (processPrompt ⟨1, 3⟩ true (fun _ => Except.ok ⟨"s", "t", []⟩) [] "T"
    (fun _ => Except.ok "r") "P" "hi" s).2

/-- Counterexample to claim C1 as stated: with `chunk_size = 1` and
`max_conversation_length = 3`, three successful turns from the initial
one-entry conversation reach length 6 — the archival step does not
repeat while the length exceeds the cap, so the excess (3) exceeds the
two entries of the last commit. -/
theorem turn_length_claim_counterexample :
    (c1Turn (c1Turn (c1Turn ⟨[⟨systemStr, "p"⟩], []⟩))).conversation.length = 6 ∧
    3 + 2 < 6 :=
  ⟨by decide, by decide⟩

/-- Claim C2: `process_prompt` commits the new user entry and the reply
entry only after the completion provider returns successfully; when the
provider fails, the returned state is exactly the post-archival,
pre-commit state — no entry appended, archival effects (conversation
and store) persisting. -/
theorem process_prompt_commit (cfg : Config) (memEnabled : Bool)
    (summ : List Message → Except Unit SummaryResult)
    (recalled : List RecalledMemory) (now : String)
    (complete : List Message → Except String String)
    (sys input : String) (s : OState) :
    (∀ e, complete (buildPayload
        (composeSystemWithMemory sys now (if memEnabled then recalled else []))
        input (archiveIfNeeded cfg memEnabled summ s).conversation) = Except.error e →
      processPrompt cfg memEnabled summ recalled now complete sys input s =
        (Except.error e, archiveIfNeeded cfg memEnabled summ s)) ∧
    (∀ reply, complete (buildPayload
        (composeSystemWithMemory sys now (if memEnabled then recalled else []))
        input (archiveIfNeeded cfg memEnabled summ s).conversation) = Except.ok reply →
      processPrompt cfg memEnabled summ recalled now complete sys input s =
        (Except.ok reply,
          ⟨(archiveIfNeeded cfg memEnabled summ s).conversation ++
              [⟨userStr, input⟩, ⟨assistantStr, reply⟩],
            (archiveIfNeeded cfg memEnabled summ s).store⟩)) := by
  constructor
  · intro e he
    simp only [processPrompt, he]
  · intro reply hr
    simp only [processPrompt, hr]

/-- Witness for claim C2's theorem: a failing provider leaves exactly
the post-archival state. -/
theorem process_prompt_commit_witness :
    processPrompt ⟨4, 50⟩ true (fun _ => Except.ok ⟨"s", "t", []⟩) [] "T"
        (fun _ => Except.error "boom") "P" "hi" ⟨[⟨systemStr, "p"⟩], []⟩ =
      (Except.error "boom",
        archiveIfNeeded ⟨4, 50⟩ true (fun _ => Except.ok ⟨"s", "t", []⟩)
          ⟨[⟨systemStr, "p"⟩], []⟩) :=
  (process_prompt_commit ⟨4, 50⟩ true (fun _ => Except.ok ⟨"s", "t", []⟩) [] "T"
    (fun _ => Except.error "boom") "P" "hi" ⟨[⟨systemStr, "p"⟩], []⟩).1 "boom" rfl

/-- A list starting with the first entry of `convo` keeps that entry at
the head. -/
theorem head_take_one_append (convo rest : List Message) (m : Message)
    (h : convo.head? = some m) : (convo.take 1 ++ rest).head? = some m := by
  cases convo with
  | nil => cases h
  | cons a t => simpa using h

/-- Appending at the tail keeps the head. -/
theorem head_append (l rest : List Message) (m : Message)
    (h : l.head? = some m) : (l ++ rest).head? = some m := by
  cases l with
  | nil => cases h
  | cons a t => simpa using h

/-- Every branch of the archival step — no-op, chunk removal starting at
index 1, and both truncation fallbacks — keeps entry 0. -/
theorem archive_head (cfg : Config) (memEnabled : Bool)
    (summ : List Message → Except Unit SummaryResult) (s : OState) (m : Message)
    (h : s.conversation.head? = some m) :
    (archiveIfNeeded cfg memEnabled summ s).conversation.head? = some m := by
  simp only [archiveIfNeeded]
  cases memEnabled with
  | false =>
      simp only [Bool.not_false, if_true]
      by_cases hc : cfg.maxConversation < s.conversation.length
      · rw [if_pos hc]
        exact head_take_one_append _ _ _ h
      · rw [if_neg hc]
        exact h
  | true =>
      simp only [Bool.not_true, Bool.false_eq_true, if_false]
      by_cases hc : s.conversation.length ≤ cfg.maxConversation
      · rw [if_pos hc]
        exact h
      · rw [if_neg hc]
        by_cases hidx : min (1 + cfg.chunkSize) (s.conversation.length - 1) ≤ 1
        · rw [if_pos hidx]
          exact h
        · rw [if_neg hidx]
          cases hs : summ ((s.conversation.take
              (min (1 + cfg.chunkSize) (s.conversation.length - 1))).drop 1) with
          | ok res => exact head_take_one_append _ _ _ h
          | error e =>
              by_cases hgt : cfg.maxConversation < s.conversation.length
              · rw [if_pos hgt]
                exact head_take_one_append _ _ _ h
              · rw [if_neg hgt]
                exact h

/-- Manual forced archival keeps entry 0 in every branch. -/
theorem force_head (summ : List Message → Except Unit SummaryResult)
    (s : OState) (m : Message) (h : s.conversation.head? = some m) :
    (memoryForce summ s).conversation.head? = some m := by
  simp only [memoryForce]
  by_cases h6 : s.conversation.length ≤ 6
  · rw [if_pos h6]
    exact h
  · rw [if_neg h6]
    by_cases he : s.conversation.length - 5 ≤ 1
    · rw [if_pos he]
      exact h
    · rw [if_neg he]
      cases hs : summ ((s.conversation.take (s.conversation.length - 5)).drop 1) with
      | error e => exact h
      | ok res => exact head_take_one_append _ _ _ h

/-- Claim C3: no memory-subsystem operation — automatic chunk archival
(chunks start at index 1), degraded or fallback truncation (which keeps
entry 0 plus a tail), a full turn's commit (which only appends), or
manual forced archival (which keeps entry 0 plus the last five
entries) — ever archives, removes, or replaces entry 0; in particular,
whenever entry 0 has role `system` it still exists with role `system`
after any such operation, so the invariant holds in every reachable
state. -/
theorem entry_zero_preserved (op : MemOp) (s : OState) (m : Message)
    (h : s.conversation.head? = some m) :
    (applyMemOp op s).conversation.head? = some m := by
  cases op with
  | turn cfg memEnabled summ recalled now sys input complete =>
      simp only [applyMemOp, processPrompt]
      have h1 := archive_head cfg memEnabled summ s m h
      cases hc : complete (buildPayload
          (composeSystemWithMemory sys now (if memEnabled then recalled else []))
          input (archiveIfNeeded cfg memEnabled summ s).conversation) with
      | error e => exact h1
      | ok reply => exact head_append _ _ _ h1
  | force summ =>
      simp only [applyMemOp]
      exact force_head summ s m h

/-- Witness for claim C3's theorem: forced archival on the minimal
conversation keeps the system entry at index 0. -/
theorem entry_zero_preserved_witness :
    (applyMemOp (.force (fun _ => Except.error ()))
        ⟨[⟨systemStr, "p"⟩], []⟩).conversation.head? = some ⟨systemStr, "p"⟩ :=
  entry_zero_preserved (.force (fun _ => Except.error ())) ⟨[⟨systemStr, "p"⟩], []⟩
    ⟨systemStr, "p"⟩ rfl

/-- Claim C7: manual forced archival on `system + 15` messages with the
built-in keep-last of 5 archives exactly the 10 messages at indices
1 through 10 as one chunk through a single store add, leaves the system
entry plus the last 5 messages (length 6), and raises
`get_stats().count` by exactly 1. -/
theorem memory_force_scenario_c (sys : Message) (msgs : List Message)
    (hlen : msgs.length = 15) (store : List MemoryRecord) (res : SummaryResult) :
    memoryForce (fun _ => Except.ok res) ⟨sys :: msgs, store⟩ =
      ⟨sys :: msgs.drop 10,
        store ++ [⟨archiveSummaryText res 10, res.topic,
          calculate_importance (msgs.take 10), 10⟩]⟩ ∧
    (memoryForce (fun _ => Except.ok res) ⟨sys :: msgs, store⟩).conversation.length = 6 ∧
    getStatsCount (memoryForce (fun _ => Except.ok res) ⟨sys :: msgs, store⟩).store =
      getStatsCount store + 1 := by
  have h16 : (sys :: msgs).length = 16 := by simp [hlen]
  have hmain : memoryForce (fun _ => Except.ok res) ⟨sys :: msgs, store⟩ =
      ⟨sys :: msgs.drop 10,
        store ++ [⟨archiveSummaryText res 10, res.topic,
          calculate_importance (msgs.take 10), 10⟩]⟩ := by
    simp only [memoryForce, h16]
    rw [if_neg (by omega)]
    rw [if_neg (by omega)]
    have hchunk : ((sys :: msgs).take (16 - 5)).drop 1 = msgs.take 10 := by
      simp [List.take_succ_cons]
    rw [hchunk]
    have hclen : (msgs.take 10).length = 10 := by
      simp [List.length_take, hlen]
    have hconv : (sys :: msgs).take 1 ++ (sys :: msgs).drop (16 - 5) = sys :: msgs.drop 10 := by
      simp [List.drop_succ_cons]
    rw [hconv]
    simp only [addMemoryChunk, hclen]
  refine ⟨hmain, ?_, ?_⟩
  · rw [hmain]
    simp [List.length_drop, hlen]
  · rw [hmain]
    simp [getStatsCount]

/-- Witness for claim C7's theorem on a concrete 15-message
conversation over an empty store. -/
theorem memory_force_scenario_c_witness :
    memoryForce (fun _ => Except.ok ⟨"s", "t", []⟩)
        ⟨⟨systemStr, "p"⟩ :: List.replicate 15 ⟨userStr, "x"⟩, []⟩ =
      ⟨⟨systemStr, "p"⟩ :: (List.replicate 15 (⟨userStr, "x"⟩ : Message)).drop 10,
        [] ++ [⟨archiveSummaryText ⟨"s", "t", []⟩ 10, "t",
          calculate_importance ((List.replicate 15 (⟨userStr, "x"⟩ : Message)).take 10), 10⟩]⟩ :=
  (memory_force_scenario_c ⟨systemStr, "p"⟩ (List.replicate 15 ⟨userStr, "x"⟩)
    (by decide) [] ⟨"s", "t", []⟩).1

end Vexa
